import Mathlib

/-!
Verification of the trading-signal core of this repository: candle data model,
risk engine (`calculateTradeSetup`), indicator pipeline (`calculateIndicators`,
`calculateFibonacciLevels`), signal detector (`checkSignals`), candle-window
update and per-session signal emission with deduplication.

Prices, volumes and indicator values are embedded as exact rationals (`ℚ`);
the source's IEEE doubles only matter through comparisons and exact ring
operations in the claims considered, none of which hinge on rounding.
Timestamps are integers (milliseconds). JavaScript truthiness of numeric
fields (`0` is falsy) and of optional fields is modelled explicitly at each
use site.
-/

set_option maxRecDepth 20000

/-- A single OHLCV candle as produced by the binance service layer. -/
structure Candle where
  time : Int
  «open» : ℚ
  high : ℚ
  low : ℚ
  close : ℚ
  volume : ℚ
  isFinal : Bool
deriving DecidableEq, Repr

/-- The `macd` sub-object of an indicator snapshot. -/
structure MACDValue where
  macd : ℚ
  signal : ℚ
  histogram : ℚ
deriving DecidableEq, Repr

/-- The `bb` (Bollinger) sub-object of an indicator snapshot. -/
structure BollingerValue where
  upper : ℚ
  middle : ℚ
  lower : ℚ
deriving DecidableEq, Repr

/-- Per-candle indicator snapshot (`IndicatorData` in the source); optional
fields are unset (`none`) until the indicator's warm-up offset is reached. -/
structure IndicatorData where
  time : Int
  ema7 : Option ℚ := none
  ema25 : Option ℚ := none
  ema99 : Option ℚ := none
  rsi : Option ℚ := none
  macd : Option MACDValue := none
  bb : Option BollingerValue := none
deriving DecidableEq, Repr

/-- Signal classification returned by the detector. -/
inductive SignalType where
  | BUY
  | SELL
  | NONE
deriving DecidableEq, Repr

/-- Detected signal (`Signal` in the source). -/
structure Signal where
  type : SignalType
  price : ℚ
  time : Int
  reason : String
deriving DecidableEq, Repr

/-- Order side for the risk engine. -/
inductive Side where
  | BUY
  | SELL
deriving DecidableEq, Repr

/-- Risk configuration (`RiskParams` in the source). -/
structure RiskParams where
  accountBalance : ℚ
  riskPerTradePercentage : ℚ
  stopLossPercentage : ℚ
  takeProfitPercentage : ℚ
deriving DecidableEq, Repr

/-- Output of the risk engine (`TradeSetup` in the source). -/
structure TradeSetup where
  entryPrice : ℚ
  stopLoss : ℚ
  takeProfit : ℚ
  positionSize : ℚ
  riskAmount : ℚ
deriving DecidableEq, Repr

/-- `calculateTradeSetup` from the risk service: stop, target and position
size from an entry price, risk parameters and a side. -/
def calculateTradeSetup (entryPrice : ℚ) (params : RiskParams) (side : Side) :
    TradeSetup :=
  let riskAmount := params.accountBalance * params.riskPerTradePercentage
  let stopLoss :=
    match side with
    | Side.BUY => entryPrice * (1 - params.stopLossPercentage)
    | Side.SELL => entryPrice * (1 + params.stopLossPercentage)
  let takeProfit :=
    match side with
    | Side.BUY => entryPrice * (1 + params.takeProfitPercentage)
    | Side.SELL => entryPrice * (1 - params.takeProfitPercentage)
  let priceDiff := |entryPrice - stopLoss|
  { entryPrice := entryPrice
    stopLoss := stopLoss
    takeProfit := takeProfit
    positionSize := riskAmount / priceDiff
    riskAmount := riskAmount }

/-- Fibonacci retracement levels keyed by their ratio (the source returns an
object keyed `0, 0.236, 0.382, 0.5, 0.618, 0.786, 1`). -/
structure FibonacciLevels where
  l0 : ℚ
  l236 : ℚ
  l382 : ℚ
  l5 : ℚ
  l618 : ℚ
  l786 : ℚ
  l1 : ℚ
deriving DecidableEq, Repr

/-- `calculateFibonacciLevels` from the indicator service.  The source seeds
its high/low scan with `-Infinity` / `Infinity`; on the non-empty lists where
the function does not return `null`, that scan is exactly a fold starting at
the first candle's high/low, which is how it is rendered here (`±∞` does not
exist in `ℚ`). -/
def calculateFibonacciLevels (candles : List Candle) : Option FibonacciLevels :=
  match candles with
  | [] => none
  | c :: rest =>
    let high := rest.foldl (fun h x => if x.high > h then x.high else h) c.high
    let low := rest.foldl (fun l x => if x.low < l then x.low else l) c.low
    let diff := high - low
    some
      { l0 := high
        l236 := high - 0.236 * diff
        l382 := high - 0.382 * diff
        l5 := high - 0.5 * diff
        l618 := high - 0.618 * diff
        l786 := high - 0.786 * diff
        l1 := low }

/-- Whether the incoming candle replaces the in-progress last candle: the
window is non-empty and the last element's `time` equals the incoming one's. -/
def replacesLast (window : List Candle) (c : Candle) : Bool :=
  match window.getLast? with
  | some lastC => decide (lastC.time = c.time)
  | none => false

/-- The candle-window update performed by the subscription callback in the app
shell: replace the last element on an equal `time`, otherwise append and, past
the capacity of 400, drop the oldest element. -/
def applyCandle (window : List Candle) (c : Candle) : List Candle :=
  if replacesLast window c then window.dropLast ++ [c]
  else
    let updated := window ++ [c]
    if 400 < updated.length then updated.drop 1 else updated

-- ===== Helper lemmas =====

lemma getElem?_isSome_iff {α : Type} (l : List α) (n : Nat) :
    (l[n]?).isSome ↔ n < l.length := by
  rw [Option.isSome_iff_exists]
  constructor
  · rintro ⟨a, ha⟩; exact (List.getElem?_eq_some.mp ha).1
  · intro h; exact ⟨l[n], List.getElem?_eq_some.mpr ⟨h, rfl⟩⟩

lemma foldl_max_ge (rest : List Candle) (a : ℚ) :
    a ≤ rest.foldl (fun h x => if x.high > h then x.high else h) a := by
  induction rest generalizing a with
  | nil => simp
  | cons x xs ih =>
    simp only [List.foldl_cons]
    split
    · exact le_trans (le_of_lt (by assumption)) (ih x.high)
    · exact ih a

lemma foldl_max_mem (rest : List Candle) (a : ℚ) :
    rest.foldl (fun h x => if x.high > h then x.high else h) a = a ∨
      ∃ x ∈ rest, rest.foldl (fun h x => if x.high > h then x.high else h) a = x.high := by
  induction rest generalizing a with
  | nil => simp
  | cons y ys ih =>
    simp only [List.foldl_cons]
    split
    · rcases ih y.high with h | ⟨x, hx, hfold⟩
      · exact Or.inr ⟨y, List.mem_cons_self y ys, h⟩
      · exact Or.inr ⟨x, List.mem_cons_of_mem y hx, hfold⟩
    · rcases ih a with h | ⟨x, hx, hfold⟩
      · exact Or.inl h
      · exact Or.inr ⟨x, List.mem_cons_of_mem y hx, hfold⟩

lemma foldl_max_bound (rest : List Candle) (a : ℚ) (x : Candle) (hx : x ∈ rest) :
    x.high ≤ rest.foldl (fun h x => if x.high > h then x.high else h) a := by
  induction rest generalizing a with
  | nil => cases hx
  | cons y ys ih =>
    simp only [List.foldl_cons]
    rcases List.mem_cons.mp hx with rfl | hmem
    · split
      · exact foldl_max_ge ys x.high
      · exact le_trans (le_of_not_lt (by assumption)) (foldl_max_ge ys a)
    · split
      · exact ih y.high hmem
      · exact ih a hmem

lemma foldl_min_le (rest : List Candle) (a : ℚ) :
    rest.foldl (fun l x => if x.low < l then x.low else l) a ≤ a := by
  induction rest generalizing a with
  | nil => simp
  | cons x xs ih =>
    simp only [List.foldl_cons]
    split
    · exact le_trans (ih x.low) (le_of_lt (by assumption))
    · exact ih a

lemma foldl_min_mem (rest : List Candle) (a : ℚ) :
    rest.foldl (fun l x => if x.low < l then x.low else l) a = a ∨
      ∃ x ∈ rest, rest.foldl (fun l x => if x.low < l then x.low else l) a = x.low := by
  induction rest generalizing a with
  | nil => simp
  | cons y ys ih =>
    simp only [List.foldl_cons]
    split
    · rcases ih y.low with h | ⟨x, hx, hfold⟩
      · exact Or.inr ⟨y, List.mem_cons_self y ys, h⟩
      · exact Or.inr ⟨x, List.mem_cons_of_mem y hx, hfold⟩
    · rcases ih a with h | ⟨x, hx, hfold⟩
      · exact Or.inl h
      · exact Or.inr ⟨x, List.mem_cons_of_mem y hx, hfold⟩

lemma foldl_min_bound (rest : List Candle) (a : ℚ) (x : Candle) (hx : x ∈ rest) :
    rest.foldl (fun l x => if x.low < l then x.low else l) a ≤ x.low := by
  induction rest generalizing a with
  | nil => cases hx
  | cons y ys ih =>
    simp only [List.foldl_cons]
    rcases List.mem_cons.mp hx with rfl | hmem
    · split
      · exact foldl_min_le ys x.low
      · exact le_trans (foldl_min_le ys a) (le_of_not_lt (by assumption))
    · split
      · exact ih y.low hmem
      · exact ih a hmem

-- ===== C1: risk engine =====

/-- C1: for every positive entry price and positive risk parameters,
`calculateTradeSetup` returns `riskAmount = accountBalance ·
riskPerTradePercentage`, `positionSize = riskAmount / |entry − stopLoss|`
exactly, and for BUY `stopLoss = entry·(1−slPct) < entry < takeProfit =
entry·(1+tpPct)` while for SELL `takeProfit = entry·(1−tpPct) < entry <
stopLoss = entry·(1+slPct)`. -/
theorem calculateTradeSetup_spec (e : ℚ) (p : RiskParams) (side : Side)
    (he : 0 < e) (hb : 0 < p.accountBalance) (hr : 0 < p.riskPerTradePercentage)
    (hs : 0 < p.stopLossPercentage) (ht : 0 < p.takeProfitPercentage) :
    (calculateTradeSetup e p side).riskAmount
        = p.accountBalance * p.riskPerTradePercentage ∧
    (calculateTradeSetup e p side).positionSize
        = (calculateTradeSetup e p side).riskAmount
            / |e - (calculateTradeSetup e p side).stopLoss| ∧
    (side = Side.BUY →
      (calculateTradeSetup e p side).stopLoss = e * (1 - p.stopLossPercentage) ∧
      (calculateTradeSetup e p side).takeProfit = e * (1 + p.takeProfitPercentage) ∧
      (calculateTradeSetup e p side).stopLoss < e ∧
      e < (calculateTradeSetup e p side).takeProfit) ∧
    (side = Side.SELL →
      (calculateTradeSetup e p side).takeProfit = e * (1 - p.takeProfitPercentage) ∧
      (calculateTradeSetup e p side).stopLoss = e * (1 + p.stopLossPercentage) ∧
      (calculateTradeSetup e p side).takeProfit < e ∧
      e < (calculateTradeSetup e p side).stopLoss) := by
  cases side with
  | BUY =>
    refine ⟨rfl, rfl, fun _ => ⟨rfl, rfl, ?_, ?_⟩, fun h => Side.noConfusion h⟩
    · have := mul_pos he hs
      simp only [calculateTradeSetup]
      nlinarith
    · have := mul_pos he ht
      simp only [calculateTradeSetup]
      nlinarith
  | SELL =>
    refine ⟨rfl, rfl, fun h => Side.noConfusion h, fun _ => ⟨rfl, rfl, ?_, ?_⟩⟩
    · have := mul_pos he ht
      simp only [calculateTradeSetup]
      nlinarith
    · have := mul_pos he hs
      simp only [calculateTradeSetup]
      nlinarith

/-- C1 witness: the spec's scenario (entry 100, balance 1000, risk 2%,
stop 1.5%, target 4.5%, side BUY) satisfies the theorem's hypotheses, and
the resulting setup has `riskAmount = 20`, `stopLoss = 98.5`,
`takeProfit = 104.5`, `positionSize = 40/3`. -/
theorem calculateTradeSetup_spec_witness :
    (calculateTradeSetup 100 ⟨1000, 0.02, 0.015, 0.045⟩ Side.BUY).stopLoss < 100 ∧
    100 < (calculateTradeSetup 100 ⟨1000, 0.02, 0.015, 0.045⟩ Side.BUY).takeProfit ∧
    (calculateTradeSetup 100 ⟨1000, 0.02, 0.015, 0.045⟩ Side.BUY).riskAmount = 20 ∧
    (calculateTradeSetup 100 ⟨1000, 0.02, 0.015, 0.045⟩ Side.BUY).stopLoss = 98.5 ∧
    (calculateTradeSetup 100 ⟨1000, 0.02, 0.015, 0.045⟩ Side.BUY).takeProfit = 104.5 ∧
    (calculateTradeSetup 100 ⟨1000, 0.02, 0.015, 0.045⟩ Side.BUY).positionSize = 40 / 3 := by
  have h := calculateTradeSetup_spec 100 ⟨1000, 0.02, 0.015, 0.045⟩ Side.BUY
    (by norm_num) (by norm_num) (by norm_num) (by norm_num) (by norm_num)
  refine ⟨(h.2.2.1 rfl).2.2.1, (h.2.2.1 rfl).2.2.2, ?_, ?_, ?_, ?_⟩ <;>
    with_unfolding_all rfl

-- ===== C6: Fibonacci levels =====

/-- C6: on every non-empty candle list, `calculateFibonacciLevels` returns
levels with `l0` the maximum of the highs, `l1` the minimum of the lows, and
each intermediate level equal to `high − r·(high − low)` for its ratio `r`. -/
theorem calculateFibonacciLevels_spec (candles : List Candle) (h : candles ≠ []) :
    ∃ f, calculateFibonacciLevels candles = some f ∧
      (∀ c ∈ candles, c.high ≤ f.l0) ∧ (∃ c ∈ candles, c.high = f.l0) ∧
      (∀ c ∈ candles, f.l1 ≤ c.low) ∧ (∃ c ∈ candles, c.low = f.l1) ∧
      f.l236 = f.l0 - 0.236 * (f.l0 - f.l1) ∧
      f.l382 = f.l0 - 0.382 * (f.l0 - f.l1) ∧
      f.l5 = f.l0 - 0.5 * (f.l0 - f.l1) ∧
      f.l618 = f.l0 - 0.618 * (f.l0 - f.l1) ∧
      f.l786 = f.l0 - 0.786 * (f.l0 - f.l1) ∧
      f.l0 - 0 * (f.l0 - f.l1) = f.l0 ∧
      f.l0 - 1 * (f.l0 - f.l1) = f.l1 := by
  match candles with
  | [] => exact absurd rfl h
  | c :: rest =>
    refine ⟨_, rfl, ?_, ?_, ?_, ?_, rfl, rfl, rfl, rfl, rfl, by ring, by ring⟩
    · intro x hx
      rcases List.mem_cons.mp hx with rfl | hmem
      · exact foldl_max_ge rest x.high
      · exact foldl_max_bound rest c.high x hmem
    · rcases foldl_max_mem rest c.high with heq | ⟨x, hx, heq⟩
      · exact ⟨c, List.mem_cons_self c rest, heq.symm⟩
      · exact ⟨x, List.mem_cons_of_mem c hx, heq.symm⟩
    · intro x hx
      rcases List.mem_cons.mp hx with rfl | hmem
      · exact foldl_min_le rest x.low
      · exact foldl_min_bound rest c.low x hmem
    · rcases foldl_min_mem rest c.low with heq | ⟨x, hx, heq⟩
      · exact ⟨c, List.mem_cons_self c rest, heq.symm⟩
      · exact ⟨x, List.mem_cons_of_mem c hx, heq.symm⟩

/-- Concrete single-candle window with high 200 and low 100, for the spec's
Fibonacci scenario. -/
def fibScenarioCandle : Candle := ⟨0, 150, 200, 100, 150, 1, true⟩

/-- C6 witness: a window whose high is 200 and low is 100 yields
`l618 = 138.2` and `l1 = 100` exactly (the spec's concrete scenario). -/
theorem calculateFibonacciLevels_spec_witness :
    (∃ f, calculateFibonacciLevels [fibScenarioCandle] = some f ∧
      (∀ c ∈ [fibScenarioCandle], c.high ≤ f.l0) ∧
      (∃ c ∈ [fibScenarioCandle], c.high = f.l0) ∧
      (∀ c ∈ [fibScenarioCandle], f.l1 ≤ c.low) ∧
      (∃ c ∈ [fibScenarioCandle], c.low = f.l1) ∧
      f.l236 = f.l0 - 0.236 * (f.l0 - f.l1) ∧
      f.l382 = f.l0 - 0.382 * (f.l0 - f.l1) ∧
      f.l5 = f.l0 - 0.5 * (f.l0 - f.l1) ∧
      f.l618 = f.l0 - 0.618 * (f.l0 - f.l1) ∧
      f.l786 = f.l0 - 0.786 * (f.l0 - f.l1) ∧
      f.l0 - 0 * (f.l0 - f.l1) = f.l0 ∧
      f.l0 - 1 * (f.l0 - f.l1) = f.l1) ∧
    (calculateFibonacciLevels [fibScenarioCandle]).map FibonacciLevels.l618
      = some 138.2 ∧
    (calculateFibonacciLevels [fibScenarioCandle]).map FibonacciLevels.l1
      = some 100 := by
  refine ⟨calculateFibonacciLevels_spec _ (by simp), ?_, ?_⟩
  · with_unfolding_all rfl
  · with_unfolding_all rfl

-- ===== C7: candle window =====

lemma applyCandle_replace (w : List Candle) (c : Candle)
    (hr : replacesLast w c = true) : applyCandle w c = w.dropLast ++ [c] := by
  simp [applyCandle, hr]

lemma applyCandle_append (w : List Candle) (c : Candle)
    (hr : replacesLast w c = false) :
    applyCandle w c
      = if 400 < w.length + 1 then (w ++ [c]).drop 1 else w ++ [c] := by
  simp [applyCandle, hr, List.length_append]

/-- C7: applying a candle with the last element's `time` replaces the last
element and keeps the length; any other candle is appended, with exactly the
oldest element evicted when the capacity of 400 would be exceeded, so a
window at capacity stays at 400 and the length never exceeds 400. -/
theorem applyCandle_spec (w : List Candle) (c : Candle) :
    (replacesLast w c = true →
      applyCandle w c = w.dropLast ++ [c] ∧ (applyCandle w c).length = w.length) ∧
    (replacesLast w c = false →
      (w.length + 1 ≤ 400 →
        applyCandle w c = w ++ [c] ∧ (applyCandle w c).length = w.length + 1) ∧
      (400 < w.length + 1 →
        applyCandle w c = w.drop 1 ++ [c] ∧
        (w.length = 400 → (applyCandle w c).length = 400))) ∧
    (w.length ≤ 400 → (applyCandle w c).length ≤ 400) := by
  have hne : replacesLast w c = true → w ≠ [] := by
    intro hr he
    subst he
    simp [replacesLast] at hr
  refine ⟨?_, ?_, ?_⟩
  · intro hr
    have hw : w ≠ [] := hne hr
    have hpos : 1 ≤ w.length := List.length_pos.mpr hw
    refine ⟨applyCandle_replace w c hr, ?_⟩
    rw [applyCandle_replace w c hr]
    simp only [List.length_append, List.length_dropLast, List.length_cons,
      List.length_nil]
    omega
  · intro hr
    constructor
    · intro hlen
      rw [applyCandle_append w c hr, if_neg (by omega)]
      exact ⟨rfl, by simp [List.length_append]⟩
    · intro hlen
      have hw1 : 1 ≤ w.length := by omega
      rw [applyCandle_append w c hr, if_pos (by omega)]
      refine ⟨List.drop_append_of_le_length hw1, ?_⟩
      intro h400
      simp only [List.length_drop, List.length_append, List.length_cons,
        List.length_nil]
      omega
  · intro hw
    by_cases hr : replacesLast w c = true
    · have hpos : 1 ≤ w.length := List.length_pos.mpr (hne hr)
      rw [applyCandle_replace w c hr]
      simp only [List.length_append, List.length_dropLast, List.length_cons,
        List.length_nil]
      omega
    · rw [Bool.not_eq_true] at hr
      rw [applyCandle_append w c hr]
      split
      · simp only [List.length_drop, List.length_append, List.length_cons,
          List.length_nil]
        omega
      · simp only [List.length_append, List.length_cons, List.length_nil]
        omega

/-- Concrete candles for the window-update witness. -/
def windowCandleA : Candle := ⟨0, 1, 1, 1, 1, 1, true⟩

/-- Candle with a fresh `time`, appended by the window update. -/
def windowCandleB : Candle := ⟨5, 2, 2, 2, 2, 2, true⟩

/-- Candle sharing `windowCandleA`'s `time`, replacing it in the window. -/
def windowCandleC : Candle := ⟨0, 2, 2, 2, 2, 2, true⟩

/-- C7 witness: on a one-element window, a candle with a fresh `time` is
appended (length 2 ≤ 400), and a candle with the same `time` replaces the
last element keeping length 1. -/
theorem applyCandle_spec_witness :
    applyCandle [windowCandleA] windowCandleB = [windowCandleA, windowCandleB] ∧
    applyCandle [windowCandleA] windowCandleC = [windowCandleC] := by
  constructor
  · exact (((applyCandle_spec [windowCandleA] windowCandleB).2.1 (by rfl)).1
      (by simp)).1
  · exact ((applyCandle_spec [windowCandleA] windowCandleC).1 (by rfl)).1

-- ===== Signal detector =====

/-- JavaScript `slice(-n)`: the last `n` elements (the whole list when it is
shorter than `n`). -/
def takeLast {α : Type} (n : Nat) (xs : List α) : List α :=
  xs.drop (xs.length - n)

/-- The sentinel no-signal value `{ type: NONE, price: 0, time: 0, reason: '' }`. -/
def noSignal : Signal :=
  { type := SignalType.NONE, price := 0, time := 0, reason := "" }

/-- `isUpTrend` from `checkSignals`: close above EMA(99), with the permissive
default `true` when `ema99` is falsy (unset, or the falsy number 0). -/
def isUpTrend (currentPrice : ℚ) (ind : IndicatorData) : Bool :=
  match ind.ema99 with
  | none => true
  | some e => if e = 0 then true else decide (currentPrice > e)

/-- `emasAligned` from `checkSignals`: all three EMAs truthy (set and nonzero)
and `ema7 > ema25 > ema99`. -/
def emasAligned (ind : IndicatorData) : Bool :=
  match ind.ema7, ind.ema25, ind.ema99 with
  | some a, some b, some c =>
    decide (a ≠ 0) && decide (b ≠ 0) && decide (c ≠ 0) &&
      decide (a > b) && decide (b > c)
  | _, _, _ => false

/-- `emasAlignedBearish` from `checkSignals`: all three EMAs truthy and
`ema7 < ema25 < ema99`. -/
def emasAlignedBearish (ind : IndicatorData) : Bool :=
  match ind.ema7, ind.ema25, ind.ema99 with
  | some a, some b, some c =>
    decide (a ≠ 0) && decide (b ≠ 0) && decide (c ≠ 0) &&
      decide (a < b) && decide (b < c)
  | _, _, _ => false

/-- `macdBullishCrossover` from `checkSignals`: both MACD objects present,
previous MACD line strictly below its signal line and current strictly
above. -/
def macdBullishCrossover (prevInd currentInd : IndicatorData) : Bool :=
  match currentInd.macd, prevInd.macd with
  | some c, some p => decide (p.macd < p.signal) && decide (c.macd > c.signal)
  | _, _ => false

/-- `macdBearishCrossover` from `checkSignals`: both MACD objects present,
previous MACD line strictly above its signal line and current strictly
below. -/
def macdBearishCrossover (prevInd currentInd : IndicatorData) : Bool :=
  match currentInd.macd, prevInd.macd with
  | some c, some p => decide (p.macd > p.signal) && decide (c.macd < c.signal)
  | _, _ => false

/-- Proximity test `Math.abs(price − level) / level < 0.005` from
`checkSignals`.  In the source, a zero level makes the quotient `Infinity` or
`NaN`, both of which fail the `<` comparison, hence the explicit guard. -/
def nearLevel (currentPrice level : ℚ) : Bool :=
  if level = 0 then false
  else decide (|currentPrice - level| / level < 0.005)

/-- The RSI value used by `checkSignals`: `currentIndicator.rsi || 50`, which
falls back to 50 when `rsi` is unset or is the falsy number 0. -/
def rsiValue (ind : IndicatorData) : ℚ :=
  match ind.rsi with
  | some v => if v = 0 then 50 else v
  | none => 50

/-- `isRsiSafeBuy` from `checkSignals`: RSI value below 70. -/
def isRsiSafeBuy (ind : IndicatorData) : Bool := decide (rsiValue ind < 70)

/-- `isRsiSafeSell` from `checkSignals`: RSI value above 30. -/
def isRsiSafeSell (ind : IndicatorData) : Bool := decide (rsiValue ind > 30)

/-- `isHighVolume` from `checkSignals`: latest volume above 1.1 times the mean
volume of the trailing 20 candles (sum divided by the constant 20). -/
def isHighVolume (candles : List Candle) (currentVolume : ℚ) : Bool :=
  let avgVolume := ((takeLast 20 candles).foldl (fun acc c => acc + c.volume) 0) / 20
  decide (currentVolume > avgVolume * 1.1)

/-- Fibonacci proximity pair `(nearFibSupport, nearFibResistance)` from
`checkSignals`: support checks levels 0.618, 0.5, 0.382; resistance checks
levels 0.236 and 0. -/
def nearFib (candles : List Candle) (currentPrice : ℚ) : Bool × Bool :=
  match calculateFibonacciLevels (takeLast 100 candles) with
  | none => (false, false)
  | some f =>
    (nearLevel currentPrice f.l618 || nearLevel currentPrice f.l5 ||
       nearLevel currentPrice f.l382,
     nearLevel currentPrice f.l236 || nearLevel currentPrice f.l0)

/-- `checkSignals` from the strategy service: the confluence rule set over the
candle window and the last two indicator snapshots.  Indicator snapshots are
addressed from the end of the list exactly as the source's
`indicators[indicators.length - 1]` / `indicators[indicators.length - 2]`
(a JavaScript index of `-1` yields `undefined`, hence the explicit length
guard for the previous snapshot). -/
def checkSignals (candles : List Candle) (indicators : List IndicatorData) :
    Signal :=
  if candles.length < 100 then noSignal
  else
    match candles.getLast? with
    | none => noSignal
    | some lastCandle =>
      let currentPrice := lastCandle.close
      match indicators[indicators.length - 1]?,
        (if 2 ≤ indicators.length then indicators[indicators.length - 2]? else none) with
      | some currentIndicator, some prevIndicator =>
        let upTrend := isUpTrend currentPrice currentIndicator
        let alignedBull := emasAligned currentIndicator
        let alignedBear := emasAlignedBearish currentIndicator
        let bullCross := macdBullishCrossover prevIndicator currentIndicator
        let bearCross := macdBearishCrossover prevIndicator currentIndicator
        let nf := nearFib candles currentPrice
        let safeBuy := isRsiSafeBuy currentIndicator
        let safeSell := isRsiSafeSell currentIndicator
        let highVol := isHighVolume candles lastCandle.volume
        if upTrend && alignedBull && bullCross && nf.1 && safeBuy && highVol then
          { type := SignalType.BUY, price := currentPrice, time := lastCandle.time,
            reason := "Convergencia: EMA(7>25>99) + MACD + Fib Soporte + RSI" }
        else if upTrend && alignedBull && bullCross && safeBuy && highVol && !nf.2 then
          { type := SignalType.BUY, price := currentPrice, time := lastCandle.time,
            reason := "Convergencia: EMA(7>25>99) + MACD Bullish + RSI OK" }
        else if !upTrend && alignedBear && bearCross && nf.2 && safeSell && highVol then
          { type := SignalType.SELL, price := currentPrice, time := lastCandle.time,
            reason := "Convergencia: EMA(7<25<99) + MACD + Fib Resistencia + Vol" }
        else if !upTrend && alignedBear && bearCross && safeSell && highVol && !nf.1 then
          { type := SignalType.SELL, price := currentPrice, time := lastCandle.time,
            reason := "Convergencia: EMA(7<25<99) + MACD Bearish + Volumen" }
        else noSignal
      | _, _ => noSignal

-- ===== Predicate extraction lemmas =====

lemma emasAligned_isSome (ind : IndicatorData) (h : emasAligned ind = true) :
    ind.ema7.isSome ∧ ind.ema25.isSome ∧ ind.ema99.isSome := by
  unfold emasAligned at h
  cases h7 : ind.ema7 <;> cases h25 : ind.ema25 <;> cases h99 : ind.ema99 <;>
    rw [h7, h25, h99] at h <;> simp_all

lemma emasAlignedBearish_isSome (ind : IndicatorData)
    (h : emasAlignedBearish ind = true) :
    ind.ema7.isSome ∧ ind.ema25.isSome ∧ ind.ema99.isSome := by
  unfold emasAlignedBearish at h
  cases h7 : ind.ema7 <;> cases h25 : ind.ema25 <;> cases h99 : ind.ema99 <;>
    rw [h7, h25, h99] at h <;> simp_all

lemma macdBullishCrossover_isSome (prv cur : IndicatorData)
    (h : macdBullishCrossover prv cur = true) :
    prv.macd.isSome ∧ cur.macd.isSome := by
  unfold macdBullishCrossover at h
  cases hc : cur.macd <;> cases hp : prv.macd <;> rw [hc, hp] at h <;> simp_all

lemma macdBearishCrossover_isSome (prv cur : IndicatorData)
    (h : macdBearishCrossover prv cur = true) :
    prv.macd.isSome ∧ cur.macd.isSome := by
  unfold macdBearishCrossover at h
  cases hc : cur.macd <;> cases hp : prv.macd <;> rw [hc, hp] at h <;> simp_all

lemma checkSignals_eq_noSignal_or (c : List Candle) (i : List IndicatorData) :
    checkSignals c i = noSignal ∨
      (checkSignals c i).type = SignalType.BUY ∨
      (checkSignals c i).type = SignalType.SELL := by
  simp only [checkSignals]
  repeat' split
  all_goals simp [noSignal]

-- ===== C9: determinism =====

/-- C9: `checkSignals` is a pure function of its two arguments; identical
candle and indicator lists always produce the identical Signal. -/
theorem checkSignals_deterministic (c₁ c₂ : List Candle)
    (i₁ i₂ : List IndicatorData) (hc : c₁ = c₂) (hi : i₁ = i₂) :
    checkSignals c₁ i₁ = checkSignals c₂ i₂ := by
  rw [hc, hi]

/-- C9 witness: the theorem applied at a concrete repeated input. -/
theorem checkSignals_deterministic_witness :
    checkSignals [] [] = checkSignals [] [] :=
  checkSignals_deterministic [] [] [] [] rfl rfl

-- ===== C10: NONE sentinel =====

/-- C10: whenever `checkSignals` returns a Signal whose type is NONE, the
returned value is exactly `{ type: NONE, price: 0, time: 0, reason: '' }` —
price and time carry the sentinel 0, never the current candle's data. -/
theorem checkSignals_none_sentinel (c : List Candle) (i : List IndicatorData)
    (h : (checkSignals c i).type = SignalType.NONE) :
    checkSignals c i = noSignal := by
  rcases checkSignals_eq_noSignal_or c i with h1 | h1 | h1
  · exact h1
  · rw [h] at h1; exact SignalType.noConfusion h1
  · rw [h] at h1; exact SignalType.noConfusion h1

/-- C10 witness: the empty window returns type NONE, hence exactly the
sentinel value. -/
theorem checkSignals_none_sentinel_witness : checkSignals [] [] = noSignal :=
  checkSignals_none_sentinel [] [] rfl

-- ===== C4: MACD crossover predicates =====

/-- C4 (amended): with both MACD objects present, the bullish-crossover
predicate holds iff the previous MACD line is strictly below its signal line
and the current strictly above (the source compares with `<`/`>`, not `≤`);
the bearish predicate is symmetric. -/
theorem macdCrossover_spec (prv cur : IndicatorData) (pm cm : MACDValue)
    (hp : prv.macd = some pm) (hc : cur.macd = some cm) :
    (macdBullishCrossover prv cur = true ↔
      pm.macd < pm.signal ∧ cm.macd > cm.signal) ∧
    (macdBearishCrossover prv cur = true ↔
      pm.macd > pm.signal ∧ cm.macd < cm.signal) := by
  unfold macdBullishCrossover macdBearishCrossover
  rw [hp, hc]
  simp

/-- Previous snapshot with MACD line strictly below the signal line. -/
def macdPrevBelow : IndicatorData := { time := 0, macd := some ⟨-1, 0, -1⟩ }

/-- Current snapshot with MACD line strictly above the signal line. -/
def macdCurAbove : IndicatorData := { time := 1, macd := some ⟨1, 0, 1⟩ }

/-- Previous snapshot whose MACD line equals its signal line. -/
def macdPrevEqual : IndicatorData := { time := 0, macd := some ⟨0, 0, 0⟩ }

/-- C4 witness: a strict cross (−1 < 0, then 1 > 0) is detected. -/
theorem macdCrossover_spec_witness :
    macdBullishCrossover macdPrevBelow macdCurAbove = true :=
  ((macdCrossover_spec macdPrevBelow macdCurAbove ⟨-1, 0, -1⟩ ⟨1, 0, 1⟩
    rfl rfl).1).mpr (by norm_num)

/-- C4 counterexample to the claim as stated: with the previous MACD line
equal to its signal line (so `prev ≤` holds) and the current line strictly
above, the claim's ≤-based condition is satisfied, yet the source's
strict-<-based predicate is false. -/
theorem macdCrossover_cex :
    macdPrevEqual.macd = some ⟨0, 0, 0⟩ ∧ macdCurAbove.macd = some ⟨1, 0, 1⟩ ∧
    ((0 : ℚ) ≤ 0 ∧ (1 : ℚ) > 0) ∧
    macdBullishCrossover macdPrevEqual macdCurAbove = false := by
  refine ⟨rfl, rfl, ⟨le_refl 0, by norm_num⟩, ?_⟩
  with_unfolding_all rfl

-- ===== C8: RSI safety predicates =====

/-- C8 (amended): when `rsi` is set to a nonzero value `v`, `isRsiSafeBuy`
holds iff `v < 70` and `isRsiSafeSell` iff `v > 30`; when `rsi` is unset —
or set to the falsy value 0, which `rsi || 50` also replaces — the default
50 makes both predicates hold. -/
theorem rsiSafe_spec (ind : IndicatorData) :
    (∀ v, ind.rsi = some v → v ≠ 0 →
      ((isRsiSafeBuy ind = true ↔ v < 70) ∧ (isRsiSafeSell ind = true ↔ 30 < v))) ∧
    ((ind.rsi = none ∨ ind.rsi = some 0) →
      isRsiSafeBuy ind = true ∧ isRsiSafeSell ind = true) := by
  constructor
  · intro v hv hv0
    unfold isRsiSafeBuy isRsiSafeSell rsiValue
    rw [hv]
    simp [hv0]
  · rintro (hv | hv) <;>
      unfold isRsiSafeBuy isRsiSafeSell rsiValue <;> rw [hv] <;> simp <;> norm_num

/-- Snapshot with a defined, nonzero RSI of 65. -/
def rsiInd65 : IndicatorData := { time := 0, rsi := some 65 }

/-- Snapshot with a defined RSI of exactly 0 (falsy in the source). -/
def rsiIndZero : IndicatorData := { time := 0, rsi := some 0 }

/-- C8 witness: at RSI 65 both predicates evaluate per the amended claim. -/
theorem rsiSafe_spec_witness :
    isRsiSafeBuy rsiInd65 = true ∧ isRsiSafeSell rsiInd65 = true := by
  have h := (rsiSafe_spec rsiInd65).1 65 rfl (by norm_num)
  exact ⟨h.1.mpr (by norm_num), h.2.mpr (by norm_num)⟩

/-- C8 counterexample to the claim as stated: RSI is defined and equal to 0,
the claim demands `rsiSafeSell ↔ 0 > 30` (false), yet the source's
`rsi || 50` fallback treats 0 as unset and the predicate evaluates to true. -/
theorem rsiSafe_cex :
    rsiIndZero.rsi = some 0 ∧ isRsiSafeSell rsiIndZero = true ∧ ¬((0 : ℚ) > 30) :=
  ⟨rfl, by with_unfolding_all rfl, by norm_num⟩

-- ===== C2: guard conditions of checkSignals =====

lemma checkSignals_emit (c : List Candle) (i : List IndicatorData)
    (h : (checkSignals c i).type ≠ SignalType.NONE) :
    100 ≤ c.length ∧ 2 ≤ i.length ∧
      ∃ cur prv, i[i.length - 1]? = some cur ∧ i[i.length - 2]? = some prv ∧
        cur.ema7.isSome ∧ cur.ema25.isSome ∧ cur.ema99.isSome ∧
        cur.macd.isSome ∧ prv.macd.isSome := by
  simp only [checkSignals] at h
  split at h
  · exact absurd rfl h
  next hlen =>
    split at h
    · exact absurd rfl h
    next lastCandle hlast =>
      split at h
      next cur prv hcur hprv =>
        have hprv2 : 2 ≤ i.length ∧ i[i.length - 2]? = some prv := by
          by_cases h2 : 2 ≤ i.length
          · rw [if_pos h2] at hprv
            exact ⟨h2, hprv⟩
          · rw [if_neg h2] at hprv
            exact Option.noConfusion hprv
        refine ⟨by omega, hprv2.1, cur, prv, hcur, hprv2.2, ?_⟩
        split at h
        next hcond =>
          simp only [Bool.and_eq_true] at hcond
          obtain ⟨⟨⟨⟨⟨_, hbull⟩, hcross⟩, _⟩, _⟩, _⟩ := hcond
          have he := emasAligned_isSome cur hbull
          have hm := macdBullishCrossover_isSome prv cur hcross
          exact ⟨he.1, he.2.1, he.2.2, hm.2, hm.1⟩
        next =>
          split at h
          next hcond =>
            simp only [Bool.and_eq_true] at hcond
            obtain ⟨⟨⟨⟨⟨_, hbull⟩, hcross⟩, _⟩, _⟩, _⟩ := hcond
            have he := emasAligned_isSome cur hbull
            have hm := macdBullishCrossover_isSome prv cur hcross
            exact ⟨he.1, he.2.1, he.2.2, hm.2, hm.1⟩
          next =>
            split at h
            next hcond =>
              simp only [Bool.and_eq_true] at hcond
              obtain ⟨⟨⟨⟨⟨_, hbear⟩, hcross⟩, _⟩, _⟩, _⟩ := hcond
              have he := emasAlignedBearish_isSome cur hbear
              have hm := macdBearishCrossover_isSome prv cur hcross
              exact ⟨he.1, he.2.1, he.2.2, hm.2, hm.1⟩
            next =>
              split at h
              next hcond =>
                simp only [Bool.and_eq_true] at hcond
                obtain ⟨⟨⟨⟨⟨_, hbear⟩, hcross⟩, _⟩, _⟩, _⟩ := hcond
                have he := emasAlignedBearish_isSome cur hbear
                have hm := macdBearishCrossover_isSome prv cur hcross
                exact ⟨he.1, he.2.1, he.2.2, hm.2, hm.1⟩
              next => exact absurd rfl h
      next => exact absurd rfl h

/-- C2 (amended): `checkSignals` returns the NONE sentinel on every window of
fewer than 100 candles; and it returns a non-NONE Signal only when the window
has at least 100 candles, the latest and previous indicator snapshots both
exist, the latest snapshot has all three EMA fields and the MACD field
defined, and the previous snapshot has its MACD field defined.  (The previous
snapshot's EMA fields are not required by the source.) -/
theorem checkSignals_guard_spec (c : List Candle) (i : List IndicatorData) :
    (c.length < 100 → checkSignals c i = noSignal) ∧
    ((checkSignals c i).type ≠ SignalType.NONE →
      100 ≤ c.length ∧ 2 ≤ i.length ∧
        ∃ cur prv, i[i.length - 1]? = some cur ∧ i[i.length - 2]? = some prv ∧
          cur.ema7.isSome ∧ cur.ema25.isSome ∧ cur.ema99.isSome ∧
          cur.macd.isSome ∧ prv.macd.isSome) := by
  constructor
  · intro hlen
    simp only [checkSignals, if_pos hlen]
  · exact checkSignals_emit c i

/-- C2 witness: a 99-candle window (shorter than 100) maps to the NONE
sentinel under the first clause of the theorem. -/
theorem checkSignals_guard_spec_witness :
    checkSignals (List.replicate 99 ⟨0, 100, 100, 100, 100, 1, true⟩) [] = noSignal :=
  (checkSignals_guard_spec (List.replicate 99 ⟨0, 100, 100, 100, 100, 1, true⟩) []).1
    (by simp)

/-- Flat candle used to build the 100-candle counterexample window. -/
def flatCandle : Candle := ⟨0, 100, 100, 100, 100, 1, true⟩

/-- Final candle of the counterexample window: same price, elevated volume. -/
def spikeCandle : Candle := ⟨99, 100, 100, 100, 100, 100, true⟩

/-- 100-candle window: 99 flat candles and one closing volume spike. -/
def cexCandles : List Candle := List.replicate 99 flatCandle ++ [spikeCandle]

/-- Previous indicator snapshot with MACD defined but EVERY EMA field unset. -/
def cexPrevInd : IndicatorData := { time := 0, macd := some ⟨-1, 0, -1⟩ }

/-- Latest indicator snapshot with aligned EMAs and a bullish MACD cross. -/
def cexCurInd : IndicatorData :=
  { time := 99, ema7 := some 3, ema25 := some 2, ema99 := some 1,
    macd := some ⟨1, 0, 1⟩ }

/-- Indicator list for the counterexample: previous then latest snapshot. -/
def cexIndicators : List IndicatorData := [cexPrevInd, cexCurInd]

/-- C2 counterexample to the claim as stated: the claim requires defined EMA
fields on BOTH the latest and the previous snapshot for any non-NONE result,
but the source never reads the previous snapshot's EMAs — here a BUY Signal
is emitted while the previous snapshot's EMA fields are all unset. -/
theorem checkSignals_guard_cex :
    (checkSignals cexCandles cexIndicators).type = SignalType.BUY ∧
    cexIndicators[cexIndicators.length - 2]? = some cexPrevInd ∧
    cexPrevInd.ema7 = none ∧ cexPrevInd.ema25 = none ∧ cexPrevInd.ema99 = none := by
  refine ⟨?_, rfl, rfl, rfl, rfl⟩
  with_unfolding_all rfl

-- ===== C3: session signal emission and deduplication =====

/-- One entry of the session's alert history (`AlertHistoryItem` in the app
shell). -/
structure AlertHistoryItem where
  id : String
  timestamp : Int
  interval : String
  type : SignalType
  price : ℚ
  reason : String
deriving DecidableEq, Repr

/-- The session state touched by signal emission: the rolling all-timeframe
signal feed and the alert history. -/
structure SessionState where
  signals : List Signal
  alertHistory : List AlertHistoryItem
deriving DecidableEq, Repr

/-- Prefix test on character lists, for JavaScript `String.includes`. -/
def charsPrefix : List Char → List Char → Bool
  | [], _ => true
  | _ :: _, [] => false
  | a :: as, b :: bs => a == b && charsPrefix as bs

/-- Substring occurrence test on character lists. -/
def charsContain (sub : List Char) : List Char → Bool
  | [] => sub.isEmpty
  | b :: bs => charsPrefix sub (b :: bs) || charsContain sub bs

/-- JavaScript `s.includes(sub)`. -/
def strIncludes (s sub : String) : Bool := charsContain sub.toList s.toList

/-- The signal-emission step of `processCandles` in the app shell: a non-NONE
signal is dropped when the globally most recent feed entry has the identical
`time` and its tagged reason contains the incoming interval name; otherwise
the interval-tagged signal is appended to the feed (capped to the last 20)
and an alert item is prepended to the alert history (capped to 50). -/
def processSignal (st : SessionState) (interval : String) (signal : Signal) :
    SessionState :=
  if signal.type = SignalType.NONE then st
  else
    let prev := st.signals
    let isDuplicate :=
      match prev.getLast? with
      | some l => decide (l.time = signal.time) && strIncludes l.reason interval
      | none => false
    if isDuplicate then st
    else
      let signalWithInterval : Signal :=
        { signal with reason := "[" ++ interval ++ "] " ++ signal.reason }
      let alertItem : AlertHistoryItem :=
        { id := interval ++ "-" ++ toString signal.time
          timestamp := signal.time
          interval := interval
          type := signal.type
          price := signal.price
          reason := signal.reason }
      { signals := takeLast 20 (prev ++ [signalWithInterval])
        alertHistory := (alertItem :: st.alertHistory).take 50 }

/-- C3 (amended): a non-NONE detection is suppressed — the session state is
left unchanged, so nothing is appended to the alert log — exactly when the
globally most recent feed entry has the identical `time` and its tagged
reason contains the incoming timeframe's name; in particular two
back-to-back same-time detections of one timeframe with no intervening
emission produce a single alert entry.  Interleaved emissions from other
timeframes defeat the suppression (see the counterexample). -/
theorem processSignal_dedup_spec (st : SessionState) (interval : String)
    (signal : Signal) (l : Signal)
    (hne : signal.type ≠ SignalType.NONE)
    (hlast : st.signals.getLast? = some l)
    (htime : l.time = signal.time)
    (hincl : strIncludes l.reason interval = true) :
    processSignal st interval signal = st := by
  simp [processSignal, hne, hlast, htime, hincl]

/-- Feed entry already emitted for timeframe 4h at candle time 100. -/
def taggedPrev : Signal :=
  { type := SignalType.BUY, price := 100, time := 100, reason := "[4h] r" }

/-- Second detection for timeframe 4h with the same candle time 100. -/
def incomingDup : Signal :=
  { type := SignalType.BUY, price := 100, time := 100, reason := "r" }

/-- C3 witness: with the 4h time-100 entry as the most recent feed element,
a second 4h time-100 detection leaves the session state unchanged. -/
theorem processSignal_dedup_spec_witness :
    processSignal ⟨[taggedPrev], []⟩ "4h" incomingDup = ⟨[taggedPrev], []⟩ :=
  processSignal_dedup_spec ⟨[taggedPrev], []⟩ "4h" incomingDup taggedPrev
    (by decide) rfl rfl (by decide)

/-- 4h detection at candle time 100 (emitted twice in the counterexample). -/
def sig4h : Signal := { type := SignalType.BUY, price := 100, time := 100, reason := "r" }

/-- Interleaved 1h detection at a different candle time. -/
def sig1h : Signal := { type := SignalType.BUY, price := 100, time := 50, reason := "r" }

/-- C3 counterexample to the claim as stated: two consecutive 4h detections
with the identical candle time 100, interleaved with one 1h emission, put TWO
entries with the (4h, 100) pair into the alert log — the dedup check only
inspects the globally last feed entry, which the 1h emission has replaced. -/
theorem processSignal_dedup_cex :
    ((processSignal (processSignal (processSignal ⟨[], []⟩ "4h" sig4h) "1h" sig1h)
        "4h" sig4h).alertHistory.countP
      (fun a => a.interval == "4h" && a.timestamp == 100)) = 2 := by
  decide

-- ===== C5: indicator pipeline =====

/-- EMA recurrence `ema[i] = close[i]·k + ema[i-1]·(1-k)`, one output per
remaining input value. -/
def emaRec (k : ℚ) : ℚ → List ℚ → List ℚ
  | _, [] => []
  | prev, v :: vs =>
    let e := v * k + prev * (1 - k)
    e :: emaRec k e vs

/-- Modelled from the spec: `EMA.calculate` of the external
`technicalindicators` package (not part of src/): "undefined for index < p−1;
seeded using a simple moving average of the first p closes, then recurrence
`ema[i] = close[i]·k + ema[i-1]·(1-k)`, `k = 2/(p+1)`" — so the output list
has one value per input index ≥ p−1. -/
def emaCalculate (period : Nat) (values : List ℚ) : List ℚ :=
  if period = 0 ∨ values.length < period then []
  else
    let seed := (values.take period).foldl (· + ·) 0 / (period : ℚ)
    let k : ℚ := 2 / ((period : ℚ) + 1)
    seed :: emaRec k seed (values.drop period)

/-- Successive differences of a series, for the RSI gain/loss split. -/
def diffs : List ℚ → List ℚ
  | a :: b :: rest => (b - a) :: diffs (b :: rest)
  | _ => []

/-- Positive part of a price change. -/
def gainOf (c : ℚ) : ℚ := if c > 0 then c else 0

/-- Negative part (as a magnitude) of a price change. -/
def lossOf (c : ℚ) : ℚ := if c < 0 then -c else 0

/-- RSI value from average gain and average loss (RSI 100 on zero loss). -/
def rsiOf (aG aL : ℚ) : ℚ := if aL = 0 then 100 else 100 - 100 / (1 + aG / aL)

/-- Wilder smoothing of average gains/losses, one RSI value per remaining
change. -/
def wilderRec (period : Nat) : ℚ → ℚ → List ℚ → List ℚ
  | _, _, [] => []
  | aG, aL, ch :: rest =>
    let aG2 := (aG * ((period : ℚ) - 1) + gainOf ch) / (period : ℚ)
    let aL2 := (aL * ((period : ℚ) - 1) + lossOf ch) / (period : ℚ)
    rsiOf aG2 aL2 :: wilderRec period aG2 aL2 rest

/-- Modelled from the spec: `RSI.calculate` of the external
`technicalindicators` package (not part of src/): "undefined for index < 14;
standard Wilder smoothing of gains/losses" — seeded with simple averages of
the first `period` changes, one output per input index ≥ period. -/
def rsiCalculate (period : Nat) (values : List ℚ) : List ℚ :=
  let ch := diffs values
  if period = 0 ∨ ch.length < period then []
  else
    let seedG := ((ch.take period).map gainOf).foldl (· + ·) 0 / (period : ℚ)
    let seedL := ((ch.take period).map lossOf).foldl (· + ·) 0 / (period : ℚ)
    rsiOf seedG seedL :: wilderRec period seedG seedL (ch.drop period)

/-- Modelled from the spec: `MACD.calculate` of the external
`technicalindicators` package (not part of src/): MACD line = fast EMA −
slow EMA (difference of two EMAs aligned at the slow warm-up), signal = EMA
of the MACD line, histogram = line − signal; an entry is produced only once
"the 26-period EMA and the 9-period signal EMA of the MACD line are both
defined", compounding to the offset `26 + 9 − 2` from series start. -/
def macdCalculate (fastPeriod slowPeriod signalPeriod : Nat)
    (values : List ℚ) : List MACDValue :=
  let emaFast := emaCalculate fastPeriod values
  let emaSlow := emaCalculate slowPeriod values
  let line :=
    ((emaFast.drop (slowPeriod - fastPeriod)).zip emaSlow).map fun x => x.1 - x.2
  let signalLine := emaCalculate signalPeriod line
  ((line.drop (signalPeriod - 1)).zip signalLine).map
    fun x => { macd := x.1, signal := x.2, histogram := x.1 - x.2 }

/-- Modelled from the spec: `BollingerBands.calculate` of the external
`technicalindicators` package (not part of src/): "undefined for index < 19;
upper/lower = 20-period SMA ± 2 standard deviations of the trailing 20
closes" — one entry per full window.  The exact square root of the variance
is not representable in `ℚ`; since no claim concerns band values (only the
presence and alignment of entries), the bands are rendered as SMA ± 2·(sample
variance), which preserves the warm-up offset and output length. -/
def bbCalculate (period : Nat) (values : List ℚ) : List BollingerValue :=
  (List.range (values.length + 1 - period)).map fun i =>
    let window := (values.drop i).take period
    let sma := window.foldl (· + ·) 0 / (period : ℚ)
    let dev := (window.map fun v => (v - sma) ^ 2).foldl (· + ·) 0 / (period : ℚ)
    { upper := sma + 2 * dev, middle := sma, lower := sma - 2 * dev }

/-- `calculateIndicators` from the indicator service: per-candle snapshots,
each indicator list re-indexed by its warm-up offset (6, 24, 98, 14,
`26 + 9 − 2 = 33`, 19); an out-of-range library index yields an unset field,
exactly as the source's `undefined` element does. -/
def calculateIndicators (candles : List Candle) : List IndicatorData :=
  let closes := candles.map Candle.close
  let times := candles.map Candle.time
  let e7 := emaCalculate 7 closes
  let e25 := emaCalculate 25 closes
  let e99 := emaCalculate 99 closes
  let rs := rsiCalculate 14 closes
  let mc := macdCalculate 12 26 9 closes
  let bbs := bbCalculate 20 closes
  times.enum.map fun p =>
    { time := p.2
      ema7 := if 6 ≤ p.1 then e7[p.1 - 6]? else none
      ema25 := if 24 ≤ p.1 then e25[p.1 - 24]? else none
      ema99 := if 98 ≤ p.1 then e99[p.1 - 98]? else none
      rsi := if 14 ≤ p.1 then rs[p.1 - 14]? else none
      macd := if 33 ≤ p.1 then mc[p.1 - 33]? else none
      bb := if 19 ≤ p.1 then bbs[p.1 - 19]? else none }

lemma emaRec_length (vs : List ℚ) : ∀ (k prev : ℚ),
    (emaRec k prev vs).length = vs.length := by
  induction vs with
  | nil => intro k prev; rfl
  | cons v tl ih => intro k prev; simp [emaRec, ih]

lemma emaCalculate_length (period : Nat) (values : List ℚ) (hp : period ≠ 0) :
    (emaCalculate period values).length = values.length + 1 - period := by
  unfold emaCalculate
  split
  next h =>
    rcases h with h | h
    · exact absurd h hp
    · simp only [List.length_nil]
      omega
  next h =>
    push_neg at h
    simp only [List.length_cons, emaRec_length, List.length_drop]
    omega

lemma diffs_length (vs : List ℚ) : (diffs vs).length = vs.length - 1 := by
  induction vs with
  | nil => rfl
  | cons a tl ih =>
    cases tl with
    | nil => rfl
    | cons b rest =>
      simp only [diffs, List.length_cons] at ih ⊢
      omega

lemma wilderRec_length (vs : List ℚ) : ∀ (period : Nat) (aG aL : ℚ),
    (wilderRec period aG aL vs).length = vs.length := by
  induction vs with
  | nil => intro p aG aL; rfl
  | cons v tl ih => intro p aG aL; simp [wilderRec, ih]

lemma rsiCalculate_length (period : Nat) (values : List ℚ) (hp : period ≠ 0) :
    (rsiCalculate period values).length = values.length - period := by
  simp only [rsiCalculate]
  split
  next h =>
    rcases h with h | h
    · exact absurd h hp
    · rw [diffs_length] at h
      simp only [List.length_nil]
      omega
  next h =>
    push_neg at h
    obtain ⟨-, h2⟩ := h
    rw [diffs_length] at h2
    simp only [List.length_cons, wilderRec_length, List.length_drop, diffs_length]
    omega

lemma macdCalculate_length (values : List ℚ) :
    (macdCalculate 12 26 9 values).length = values.length - 33 := by
  simp only [macdCalculate, List.length_map, List.length_zip, List.length_drop]
  rw [emaCalculate_length 12 values (by omega), emaCalculate_length 26 values (by omega),
    emaCalculate_length 9 _ (by omega)]
  simp only [List.length_map, List.length_zip, List.length_drop]
  rw [emaCalculate_length 12 values (by omega), emaCalculate_length 26 values (by omega)]
  omega

lemma bbCalculate_length (period : Nat) (values : List ℚ) :
    (bbCalculate period values).length = values.length + 1 - period := by
  simp [bbCalculate]

/-- C5: `calculateIndicators` returns one snapshot per candle, positionally
aligned (`output[i].time = input[i].time`), and each optional field is set
exactly from its warm-up offset onward: `ema7` iff `i ≥ 6`, `ema25` iff
`i ≥ 24`, `ema99` iff `i ≥ 98`, `rsi` iff `i ≥ 14`, `bb` iff `i ≥ 19`, and
`macd` iff `i ≥ 26 + 9 − 2 = 33`. -/
theorem calculateIndicators_spec (candles : List Candle) :
    (calculateIndicators candles).length = candles.length ∧
    ∀ n d, (calculateIndicators candles)[n]? = some d →
      (∃ cd, candles[n]? = some cd ∧ d.time = cd.time) ∧
      (d.ema7.isSome ↔ 6 ≤ n) ∧ (d.ema25.isSome ↔ 24 ≤ n) ∧
      (d.ema99.isSome ↔ 98 ≤ n) ∧ (d.rsi.isSome ↔ 14 ≤ n) ∧
      (d.bb.isSome ↔ 19 ≤ n) ∧ (d.macd.isSome ↔ 33 ≤ n) := by
  constructor
  · simp [calculateIndicators, List.enum_length]
  · intro n d hd
    simp only [calculateIndicators, List.getElem?_map, List.getElem?_enum] at hd
    cases hcd : candles[n]? with
    | none =>
      rw [hcd] at hd
      simp at hd
    | some cd =>
      rw [hcd] at hd
      simp only [Option.map_some'] at hd
      obtain rfl := (Option.some_inj.mp hd).symm
      have hn : n < candles.length := (List.getElem?_eq_some.mp hcd).1
      have hlen : (candles.map Candle.close).length = candles.length :=
        List.length_map candles Candle.close
      refine ⟨⟨cd, rfl, rfl⟩, ?_, ?_, ?_, ?_, ?_, ?_⟩
      · by_cases h6 : 6 ≤ n
        · simp only [if_pos h6, getElem?_isSome_iff,
            emaCalculate_length 7 _ (by omega), hlen]
          constructor
          · intro _; exact h6
          · intro _; omega
        · simp [if_neg h6, h6]
      · by_cases h24 : 24 ≤ n
        · simp only [if_pos h24, getElem?_isSome_iff,
            emaCalculate_length 25 _ (by omega), hlen]
          constructor
          · intro _; exact h24
          · intro _; omega
        · simp [if_neg h24, h24]
      · by_cases h98 : 98 ≤ n
        · simp only [if_pos h98, getElem?_isSome_iff,
            emaCalculate_length 99 _ (by omega), hlen]
          constructor
          · intro _; exact h98
          · intro _; omega
        · simp [if_neg h98, h98]
      · by_cases h14 : 14 ≤ n
        · simp only [if_pos h14, getElem?_isSome_iff,
            rsiCalculate_length 14 _ (by omega), hlen]
          constructor
          · intro _; exact h14
          · intro _; omega
        · simp [if_neg h14, h14]
      · by_cases h19 : 19 ≤ n
        · simp only [if_pos h19, getElem?_isSome_iff, bbCalculate_length, hlen]
          constructor
          · intro _; exact h19
          · intro _; omega
        · simp [if_neg h19, h19]
      · by_cases h33 : 33 ≤ n
        · simp only [if_pos h33, getElem?_isSome_iff, macdCalculate_length, hlen]
          constructor
          · intro _; exact h33
          · intro _; omega
        · simp [if_neg h33, h33]

/-- Single candle for the indicator-alignment witness. -/
def soloCandle : Candle := ⟨0, 1, 1, 1, 1, 1, true⟩

/-- The snapshot produced for `soloCandle` at index 0: all fields unset. -/
def soloSnapshot : IndicatorData := { time := 0 }

/-- C5 witness: the theorem applied to the one-candle window at index 0. -/
theorem calculateIndicators_spec_witness :
    (calculateIndicators [soloCandle])[0]? = some soloSnapshot ∧
    ((∃ cd, [soloCandle][0]? = some cd ∧ soloSnapshot.time = cd.time) ∧
      (soloSnapshot.ema7.isSome ↔ 6 ≤ 0) ∧ (soloSnapshot.ema25.isSome ↔ 24 ≤ 0) ∧
      (soloSnapshot.ema99.isSome ↔ 98 ≤ 0) ∧ (soloSnapshot.rsi.isSome ↔ 14 ≤ 0) ∧
      (soloSnapshot.bb.isSome ↔ 19 ≤ 0) ∧ (soloSnapshot.macd.isSome ↔ 33 ≤ 0)) :=
  ⟨rfl, (calculateIndicators_spec [soloCandle]).2 0 soloSnapshot rfl⟩
